import Mathlib

/-!
Verification of the serial-scale acquisition service (`src/main.py`).

The code is shallowly embedded over `List Nat`: a Python string produced by
`bytes.decode('latin-1', errors='ignore')` is a sequence of code points
0–255, which we represent as the list of those code points.  All the
functions below are direct translations of the Python source.
-/

/-- Embedding of `transformar_trama` (src/main.py lines 31–42): for each
character `c` of the input, if `ord(c) >= 0x80` emit `chr(ord(c) - 0x80)`,
else emit `c` unchanged.  The Python loop builds the output left to right. -/
def transformar_trama : List Nat → List Nat
  | [] => []
  | c :: rest => (if c ≥ 0x80 then c - 0x80 else c) :: transformar_trama rest

/-- The sentinel weight string `"----"` as code points. -/
def sentinel : List Nat := [0x2D, 0x2D, 0x2D, 0x2D]

/-- Embedding of Python `str.find('\x02')` (src/main.py line 155): index of
the first occurrence of code point `0x02`, or `none` when absent (the Python
code tests the `-1` result, which `none` models). -/
def findSTX : List Nat → Option Nat
  | [] => none
  | c :: rest => if c = 0x02 then some 0 else (findSTX rest).map (· + 1)

/-- Embedding of the inline frame-decoding step of `oTimer_Tick`
(src/main.py lines 154–165): find the STX marker; if found at `pos`,
take the slice `[pos+4 : pos+4+6]` (a Python slice never faults: it yields
whatever characters exist in that range); otherwise the sentinel `"----"`. -/
def decode_weight (trama : List Nat) : List Nat :=
  match findSTX trama with
  | some pos => ((trama.drop (pos + 4)).take 6)
  | none => sentinel

/-- The mutable fields of `BalanzaApp` relevant to the acquisition loop,
plus the serial port's open flag (src/main.py lines 49–75). -/
structure BState where
  cPeso : List Nat
  txtPeso : List Nat
  txtTrama : List Nat
  timer_active : Bool
  is_open : Bool
deriving Repr, DecidableEq

/-- The state built by `BalanzaApp.__init__` (src/main.py lines 50–75):
empty accumulation buffer, weight `"----"`, empty frame, inactive, closed. -/
def init_state : BState :=
  { cPeso := [], txtPeso := sentinel, txtTrama := [], timer_active := false,
    is_open := false }

/-- One iteration of the `while` body of `oTimer_Tick` either reads a chunk
of bytes (possibly empty, when `in_waiting == 0`) or hits an I/O exception;
`closeOk` tells whether the best-effort `close()` in the handler succeeds. -/
inductive TickEvent where
  | data (chunk : List Nat)
  | ioError (closeOk : Bool)
deriving Repr, DecidableEq

/-- Embedding of one iteration of the `while` body of `oTimer_Tick`
(src/main.py lines 134–184).  On `data chunk`: if the port is open, append
the chunk to `cPeso`; if the buffer now has length ≥ 30, transform it, store
it as `txtTrama`, decode the weight into `txtPeso` and reset `cPeso` to
empty; otherwise, if the buffer is empty, set `txtPeso` to the sentinel.
On `ioError`: the handler sets `timer_active` to `False` and closes the port
inside a `try`/`except: pass` (a close failure leaves the port flag as is). -/
def oTimer_Tick_step (st : BState) : TickEvent → BState
  | TickEvent.data chunk =>
    if st.is_open then
      let buf := st.cPeso ++ chunk
      if buf.length ≥ 30 then
        let trama := transformar_trama buf
        { st with txtTrama := trama, txtPeso := decode_weight trama,
                  cPeso := [] }
      else
        if buf.length = 0 then { st with cPeso := buf, txtPeso := sentinel }
        else { st with cPeso := buf }
    else st
  | TickEvent.ioError closeOk =>
    { st with timer_active := false,
              is_open := if closeOk then false else st.is_open }

/-- Embedding of the `while self.timer_active` loop of `oTimer_Tick`
(src/main.py line 134): the flag is tested before each iteration, and the
loop stops as soon as it is false. -/
def oTimer_run (st : BState) : List TickEvent → BState
  | [] => st
  | ev :: rest =>
    if st.timer_active then oTimer_run (oTimer_Tick_step st ev) rest else st

/-- Embedding of `BalanzaApp.toggle_connection` (src/main.py lines 85–126).
When inactive it opens the port (`openOk` tells whether `open()` succeeds;
on failure the exception is re-raised) and sets the flag.  When active it
clears the flag, joins the thread, closes the port, sets `txtPeso` to the
one-character string `"0"` and resets the accumulation buffer `cPeso`. -/
def toggle_connection (openOk : Bool) (st : BState) : Except Unit BState :=
  if st.timer_active then
    Except.ok { st with timer_active := false, is_open := false,
                        txtPeso := [0x30], cPeso := [] }
  else
    if openOk then
      Except.ok { st with is_open := true, timer_active := true }
    else
      Except.error ()

/-- Embedding of the `/weight/` endpoint `home` (src/main.py lines 196–211),
minus the wall-clock timestamp: it returns the triple
(`txtPeso`, `txtTrama`, `timer_active`) read from the shared instance. -/
def home (st : BState) : List Nat × List Nat × Bool :=
  (st.txtPeso, st.txtTrama, st.timer_active)

/-! ### Helper lemmas -/

theorem transformar_trama_append (a b : List Nat) :
    transformar_trama (a ++ b) = transformar_trama a ++ transformar_trama b := by
  induction a with
  | nil => rfl
  | cons c rest ih => simp [transformar_trama, ih]

theorem transformar_trama_length (s : List Nat) :
    (transformar_trama s).length = s.length := by
  induction s with
  | nil => rfl
  | cons c rest ih => simp [transformar_trama, ih]

theorem transformar_trama_getElem? (s : List Nat) (i : Nat) :
    (transformar_trama s)[i]? =
      Option.map (fun b => if 0x80 ≤ b then b - 0x80 else b) s[i]? := by
  induction s generalizing i with
  | nil => simp [transformar_trama]
  | cons c rest ih =>
    cases i with
    | zero => simp [transformar_trama, ge_iff_le]
    | succ j => simpa [transformar_trama] using ih j

theorem take_six_getD (l : List Nat) (h : 6 ≤ l.length) :
    l.take 6 = [l.getD 0 0, l.getD 1 0, l.getD 2 0, l.getD 3 0,
                l.getD 4 0, l.getD 5 0] := by
  match l, h with
  | a :: b :: c :: d :: e :: f :: rest, _ => rfl

theorem getD_drop (s : List Nat) (n i : Nat) :
    (s.drop n).getD i 0 = s.getD (n + i) 0 := by
  simp [List.getD_eq_getElem?_getD, List.getElem?_drop]

theorem oTimer_Tick_step_big (st : BState) (chunk : List Nat)
    (hopen : st.is_open = true)
    (hlen : 30 ≤ (st.cPeso ++ chunk).length) :
    oTimer_Tick_step st (TickEvent.data chunk) =
      { st with txtTrama := transformar_trama (st.cPeso ++ chunk),
                txtPeso := decode_weight (transformar_trama (st.cPeso ++ chunk)),
                cPeso := [] } := by
  simp only [oTimer_Tick_step, hopen, ge_iff_le, ite_true]
  rw [if_pos hlen]

/-! ### Claim theorems -/

/-- C5: for every input sequence, `transformar_trama` returns a sequence of
the same length whose `i`-th element is `b - 0x80` when the `i`-th input
element `b` is ≥ 0x80 and is `b` unchanged otherwise; it is total (a plain
Lean function) over all inputs. -/
theorem transformar_trama_pointwise (s : List Nat) (i : Nat) :
    (transformar_trama s).length = s.length ∧
    (transformar_trama s)[i]? =
      Option.map (fun b => if 0x80 ≤ b then b - 0x80 else b) s[i]? :=
  ⟨transformar_trama_length s, transformar_trama_getElem? s i⟩

/-- C10: over inputs whose elements are byte values (< 256), every element
of the output of `transformar_trama` is < 0x80, and consequently the
transformation is idempotent: applying it twice equals applying it once. -/
theorem transformar_trama_canonical_idem (s : List Nat)
    (h : ∀ c ∈ s, c < 256) :
    (∀ c ∈ transformar_trama s, c < 128) ∧
    transformar_trama (transformar_trama s) = transformar_trama s := by
  induction s with
  | nil => exact ⟨by simp [transformar_trama], rfl⟩
  | cons c rest ih =>
    have hc : c < 256 := h c (by simp)
    obtain ⟨ih1, ih2⟩ := ih (fun x hx => h x (by simp [hx]))
    constructor
    · intro x hx
      simp only [transformar_trama, List.mem_cons] at hx
      rcases hx with hx | hx
      · subst hx
        by_cases hb : 0x80 ≤ c <;> simp [ge_iff_le, hb] <;> omega
      · exact ih1 x hx
    · have hhead : (if c ≥ 0x80 then c - 0x80 else c) < 128 := by
        by_cases hb : 0x80 ≤ c <;> simp [ge_iff_le, hb] <;> omega
      simp only [transformar_trama, ih2]
      rw [if_neg (by omega)]

/-- C3: the frame-decoding step is total (a plain Lean function on all
inputs), and when the first 0x02 marker is at position `p` with
`p + 4 + 6` exceeding the input length, it returns the (possibly empty)
elements from position `p + 4` up to the end of the input. -/
theorem decode_weight_short_frame (s : List Nat) (p : Nat)
    (h1 : findSTX s = some p) (h2 : s.length < p + 10) :
    decode_weight s = s.drop (p + 4) := by
  unfold decode_weight
  rw [h1]
  exact List.take_of_length_le (by rw [List.length_drop]; omega)

/-- C3 witness: on the one-element input `[0x02]` the marker is at 0,
`0 + 10` exceeds the length, and the decoded weight is the empty slice. -/
theorem decode_weight_short_frame_witness :
    findSTX [0x02] = some 0 ∧ ([0x02] : List Nat).length < 0 + 10 ∧
    decode_weight [0x02] = ([0x02] : List Nat).drop (0 + 4) :=
  ⟨by decide, by decide, decode_weight_short_frame [0x02] 0 (by decide) (by decide)⟩

/-- C4: when the first 0x02 marker of a canonical frame is at index `p` and
the frame has length at least `p + 10`, the decoded weight is exactly the
6 elements at indices `p+4` through `p+9`. -/
theorem decode_weight_window (s : List Nat) (p : Nat)
    (h1 : findSTX s = some p) (h2 : p + 10 ≤ s.length) :
    decode_weight s = [s.getD (p+4) 0, s.getD (p+5) 0, s.getD (p+6) 0,
                       s.getD (p+7) 0, s.getD (p+8) 0, s.getD (p+9) 0] := by
  unfold decode_weight
  rw [h1]
  change List.take 6 (List.drop (p + 4) s) = _
  rw [take_six_getD (s.drop (p+4)) (by rw [List.length_drop]; omega)]
  simp only [getD_drop]

/-- C4 witness: a concrete frame `... 0x02 AA BB CC '1'..'6' ...` with the
marker at index 1 decodes to the window at indices 5..10, i.e. "123456". -/
theorem decode_weight_window_witness :
    findSTX [0x41, 0x02, 0xAA, 0xBB, 0xCC, 0x31, 0x32, 0x33, 0x34, 0x35, 0x36, 0x42]
      = some 1 ∧
    1 + 10 ≤ ([0x41, 0x02, 0xAA, 0xBB, 0xCC, 0x31, 0x32, 0x33, 0x34, 0x35, 0x36, 0x42] : List Nat).length ∧
    decode_weight [0x41, 0x02, 0xAA, 0xBB, 0xCC, 0x31, 0x32, 0x33, 0x34, 0x35, 0x36, 0x42]
      = [0x31, 0x32, 0x33, 0x34, 0x35, 0x36] :=
  ⟨by decide, by decide, by
    have h := decode_weight_window
      [0x41, 0x02, 0xAA, 0xBB, 0xCC, 0x31, 0x32, 0x33, 0x34, 0x35, 0x36, 0x42]
      1 (by decide) (by decide)
    simpa using h⟩

/-- The raw 12-byte prefix of the end-to-end test sequence:
`0x82 0x8D 0x02 0x00 0x00 0x00 '1' '2' '3' '4' '5' '6'`. -/
def c1raw : List Nat :=
  [0x82, 0x8D, 0x02, 0x00, 0x00, 0x00, 0x31, 0x32, 0x33, 0x34, 0x35, 0x36]

/-- A running state with empty accumulation buffer: the state right after a
successful start (port open, timer active, nothing accumulated yet). -/
def started_state : BState :=
  { init_state with timer_active := true, is_open := true }

/-- Decoding a frame that begins with the STX marker extracts the slice
starting 3 positions into the tail (4 into the frame). -/
theorem decode_weight_cons_stx (l : List Nat) :
    decode_weight (0x02 :: l) = (l.drop 3).take 6 := by
  simp [decode_weight, findSTX]

/-- C1 counterexample: feeding the raw sequence
`[0x82,0x8D,0x02,0,0,0,'1'..'6']` padded with 18 spaces to 30 bytes through
one tick does NOT publish the weight "123456": the leading 0x82 transforms
to 0x02, so the marker is found at index 0, not at the raw 0x02. -/
theorem c1_tick_counterexample :
    (oTimer_Tick_step started_state
        (TickEvent.data (c1raw ++ List.replicate 18 0x20))).txtPeso
      ≠ [0x31, 0x32, 0x33, 0x34, 0x35, 0x36] := by
  decide

/-- C1 amended: for the raw sequence `[0x82,0x8D,0x02,0,0,0,'1'..'6']`
padded with any tail bringing the length to ≥ 30, one tick from an empty
accumulation buffer publishes the weight `"\x00\x001234"` (the 6 characters
at indices 4–9 of the transformed buffer, the first 0x02 of which is at
index 0 because 0x82 transforms to 0x02). -/
theorem c1_tick_amended (pad : List Nat) (h : 18 ≤ pad.length) :
    (oTimer_Tick_step started_state (TickEvent.data (c1raw ++ pad))).txtPeso
      = [0x00, 0x00, 0x31, 0x32, 0x33, 0x34] := by
  have hlen : 30 ≤ (started_state.cPeso ++ (c1raw ++ pad)).length := by
    simp [started_state, init_state, c1raw]
    omega
  rw [oTimer_Tick_step_big started_state (c1raw ++ pad) rfl hlen]
  show decode_weight (transformar_trama (started_state.cPeso ++ (c1raw ++ pad))) = _
  rw [show started_state.cPeso ++ (c1raw ++ pad) = c1raw ++ pad from rfl]
  rw [transformar_trama_append]
  rw [show transformar_trama c1raw
        = 0x02 :: [0x0D, 0x02, 0, 0, 0, 0x31, 0x32, 0x33, 0x34, 0x35, 0x36]
      from by decide]
  rw [List.cons_append, decode_weight_cons_stx]
  rw [List.drop_append_of_le_length (by decide)]
  rw [show List.drop 3 [0x0D, 0x02, 0, 0, 0, 0x31, 0x32, 0x33, 0x34, 0x35, 0x36]
        = [0, 0, 0x31, 0x32, 0x33, 0x34, 0x35, 0x36] from rfl]
  rw [List.take_append_of_le_length (by decide)]
  rfl

/-- C1 witness: the amended statement at the concrete padding of 18 zero
bytes. -/
theorem c1_tick_amended_witness :
    18 ≤ (List.replicate 18 0 : List Nat).length ∧
    (oTimer_Tick_step started_state
        (TickEvent.data (c1raw ++ List.replicate 18 0))).txtPeso
      = [0x00, 0x00, 0x31, 0x32, 0x33, 0x34] :=
  ⟨by decide, c1_tick_amended (List.replicate 18 0) (by decide)⟩

/-- A concrete active state with a non-trivial published weight and frame. -/
def c2state : BState :=
  { cPeso := [0x37], txtPeso := [0x31, 0x32], txtTrama := [0x41, 0x42],
    timer_active := true, is_open := true }

/-- C2 counterexample: stopping from an active state does NOT leave
weight = "----" and lastFrame = "": the code sets `txtPeso` to `"0"` and
leaves `txtTrama` untouched. -/
theorem c2_stop_counterexample :
    (toggle_connection true c2state).map (fun s2 => (s2.txtPeso, s2.txtTrama))
      ≠ Except.ok (sentinel, ([] : List Nat)) := by
  intro hcontra
  exact absurd (Except.ok.inj hcontra) (by decide)

/-- C2 amended: for every active state, stop() (the active branch of
`toggle_connection`) sets active to false, the published weight to the
string `"0"` (not the sentinel "----"), resets the accumulation buffer, and
leaves `lastFrame` unchanged; a subsequent status read returns weight "0",
the pre-stop lastFrame, and active = false. -/
theorem toggle_stop_spec (openOk : Bool) (st : BState)
    (h : st.timer_active = true) :
    toggle_connection openOk st =
      Except.ok { st with timer_active := false, is_open := false,
                          txtPeso := [0x30], cPeso := [] } ∧
    (toggle_connection openOk st).map home =
      Except.ok ([0x30], st.txtTrama, false) := by
  simp [toggle_connection, h, home, Except.map]

/-- C2 witness: the amended statement at the concrete state `c2state`. -/
theorem toggle_stop_spec_witness :
    c2state.timer_active = true ∧
    (toggle_connection true c2state =
       Except.ok { c2state with timer_active := false, is_open := false,
                                txtPeso := [0x30], cPeso := [] } ∧
     (toggle_connection true c2state).map home =
       Except.ok ([0x30], c2state.txtTrama, false)) :=
  ⟨rfl, toggle_stop_spec true c2state rfl⟩

/-- C6: with the port open, a tick whose post-read buffer has length ≥ 30
performs the transform-and-decode processing and resets the buffer to
empty (whether or not 0x02 occurs anywhere: `decode_weight` covers both
cases); a tick whose post-read buffer is shorter keeps the buffer intact,
and an I/O-error tick also leaves the buffer untouched. -/
theorem tick_reset_length_triggered (st : BState) (chunk : List Nat)
    (cOk : Bool) (hopen : st.is_open = true) :
    (30 ≤ (st.cPeso ++ chunk).length →
       (oTimer_Tick_step st (TickEvent.data chunk)).cPeso = [] ∧
       (oTimer_Tick_step st (TickEvent.data chunk)).txtTrama
         = transformar_trama (st.cPeso ++ chunk) ∧
       (oTimer_Tick_step st (TickEvent.data chunk)).txtPeso
         = decode_weight (transformar_trama (st.cPeso ++ chunk))) ∧
    ((st.cPeso ++ chunk).length < 30 →
       (oTimer_Tick_step st (TickEvent.data chunk)).cPeso = st.cPeso ++ chunk) ∧
    (oTimer_Tick_step st (TickEvent.ioError cOk)).cPeso = st.cPeso := by
  refine ⟨?_, ?_, rfl⟩
  · intro hlen
    rw [oTimer_Tick_step_big st chunk hopen hlen]
    exact ⟨rfl, rfl, rfl⟩
  · intro hlt
    have hnot : ¬ 30 ≤ (st.cPeso ++ chunk).length := by omega
    simp only [oTimer_Tick_step, hopen, ite_true, ge_iff_le]
    rw [if_neg hnot]
    by_cases h0 : (st.cPeso ++ chunk).length = 0
    · rw [if_pos h0]
    · rw [if_neg h0]

/-- C6 witness: a 30-byte chunk arriving on the fresh started state. -/
theorem tick_reset_length_triggered_witness :
    started_state.is_open = true ∧
    ((30 ≤ (started_state.cPeso ++ List.replicate 30 0x41).length →
        (oTimer_Tick_step started_state
            (TickEvent.data (List.replicate 30 0x41))).cPeso = [] ∧
        (oTimer_Tick_step started_state
            (TickEvent.data (List.replicate 30 0x41))).txtTrama
          = transformar_trama (started_state.cPeso ++ List.replicate 30 0x41) ∧
        (oTimer_Tick_step started_state
            (TickEvent.data (List.replicate 30 0x41))).txtPeso
          = decode_weight
              (transformar_trama (started_state.cPeso ++ List.replicate 30 0x41))) ∧
     ((started_state.cPeso ++ List.replicate 30 0x41).length < 30 →
        (oTimer_Tick_step started_state
            (TickEvent.data (List.replicate 30 0x41))).cPeso
          = started_state.cPeso ++ List.replicate 30 0x41) ∧
     (oTimer_Tick_step started_state (TickEvent.ioError true)).cPeso
       = started_state.cPeso) :=
  ⟨rfl, tick_reset_length_triggered started_state (List.replicate 30 0x41) true rfl⟩

/-- C7: with the port open, a tick whose post-read buffer has length < 30
publishes the sentinel "----" when the buffer is empty (leaving `lastFrame`
unchanged), and keeps both the published weight and `lastFrame` unchanged
when the buffer holds a non-empty partial frame. -/
theorem tick_short_buffer (st : BState) (chunk : List Nat)
    (hopen : st.is_open = true)
    (hshort : (st.cPeso ++ chunk).length < 30) :
    (st.cPeso ++ chunk = [] →
       (oTimer_Tick_step st (TickEvent.data chunk)).txtPeso = sentinel ∧
       (oTimer_Tick_step st (TickEvent.data chunk)).txtTrama = st.txtTrama) ∧
    (st.cPeso ++ chunk ≠ [] →
       (oTimer_Tick_step st (TickEvent.data chunk)).txtPeso = st.txtPeso ∧
       (oTimer_Tick_step st (TickEvent.data chunk)).txtTrama = st.txtTrama) := by
  have hnot : ¬ 30 ≤ (st.cPeso ++ chunk).length := by omega
  constructor
  · intro he
    have h0 : (st.cPeso ++ chunk).length = 0 := by simp [he]
    simp only [oTimer_Tick_step, hopen, ite_true, ge_iff_le]
    rw [if_neg hnot, if_pos h0]
    exact ⟨rfl, rfl⟩
  · intro hne
    have h0 : ¬ (st.cPeso ++ chunk).length = 0 := by
      simpa [List.length_eq_zero] using hne
    simp only [oTimer_Tick_step, hopen, ite_true, ge_iff_le]
    rw [if_neg hnot, if_neg h0]
    exact ⟨rfl, rfl⟩

/-- C7 witness: an idle tick (no bytes) on the fresh started state. -/
theorem tick_short_buffer_witness :
    started_state.is_open = true ∧
    (started_state.cPeso ++ ([] : List Nat)).length < 30 ∧
    ((started_state.cPeso ++ [] = [] →
        (oTimer_Tick_step started_state (TickEvent.data [])).txtPeso = sentinel ∧
        (oTimer_Tick_step started_state (TickEvent.data [])).txtTrama
          = started_state.txtTrama) ∧
     (started_state.cPeso ++ [] ≠ [] →
        (oTimer_Tick_step started_state (TickEvent.data [])).txtPeso
          = started_state.txtPeso ∧
        (oTimer_Tick_step started_state (TickEvent.data [])).txtTrama
          = started_state.txtTrama)) :=
  ⟨rfl, by decide, tick_short_buffer started_state [] rfl (by decide)⟩

/-- C8: an I/O error during a tick is absorbed by the handler: the active
flag becomes false, the port is closed best-effort (a failing close is
ignored and leaves the flag as it was), the published weight and lastFrame
keep their pre-error values, and the loop then terminates: it consumes no
further events, whatever would follow. -/
theorem tick_ioError_stops (st : BState) (closeOk : Bool)
    (evs : List TickEvent) :
    (oTimer_Tick_step st (TickEvent.ioError closeOk)).timer_active = false ∧
    (oTimer_Tick_step st (TickEvent.ioError closeOk)).is_open
      = (if closeOk then false else st.is_open) ∧
    (oTimer_Tick_step st (TickEvent.ioError closeOk)).txtPeso = st.txtPeso ∧
    (oTimer_Tick_step st (TickEvent.ioError closeOk)).txtTrama = st.txtTrama ∧
    oTimer_run (oTimer_Tick_step st (TickEvent.ioError closeOk)) evs
      = oTimer_Tick_step st (TickEvent.ioError closeOk) := by
  refine ⟨rfl, rfl, rfl, rfl, ?_⟩
  cases evs with
  | nil => rfl
  | cons ev rest => simp [oTimer_run, oTimer_Tick_step]

/-- C10 witness: the idempotence statement at the concrete byte list
`[0x82, 0x41, 0xFF]`. -/
theorem transformar_trama_canonical_idem_witness :
    (∀ c ∈ ([0x82, 0x41, 0xFF] : List Nat), c < 256) ∧
    ((∀ c ∈ transformar_trama [0x82, 0x41, 0xFF], c < 128) ∧
     transformar_trama (transformar_trama [0x82, 0x41, 0xFF])
       = transformar_trama [0x82, 0x41, 0xFF]) :=
  ⟨by decide, transformar_trama_canonical_idem [0x82, 0x41, 0xFF] (by decide)⟩
